import Mathlib

/-!
Verification development for the oxidgb emulator core.

Shallow embedding of the cartridge mapper (src/core/rom.rs) and of the
general arithmetic instruction handlers (src/core/cpu/instrs/general.rs).
Machine integers are modelled as Nat with explicit wraparound where the
source relies on fixed-width arithmetic; code that can fail at runtime
is modelled in Option, where none stands for a Rust runtime failure.
-/

namespace Oxidgb

/-- The cartridge type codes of rom.rs, one variant per listed
discriminant of the Rust enum CartridgeType. -/
inductive CartridgeType where
  | RomOnly
  | RomMbc1
  | RomMbc1Ram
  | RomMbc1RamBatt
  | RomMbc2
  | RomMbc2Batt
  | RomRam
  | RomRamBatt
  | RomMMMD1
  | RomMMMD1Sram
  | RomMMMD1SramBatt
  | RomMbc3TimerBatt
  | RomMbc3TimerRamBatt
  | RomMbc3
  | RomMbc3Ram
  | RomMbc3RamBatt
  | RomMbc5
  | RomMbc5Ram
  | RomMbc5RamBatt
  | RomMbc5Rumble
  | RomMbc5RumbleSram
  | RomMbc5RumbleSramBatt
  | PocketCamera
  | BandaiTAMA5
  | HudsonHuC3
  | HudsonHuC1
  deriving DecidableEq, Repr

/-- The discriminant values the Rust enum assigns to each variant.
The source turns a header byte into a CartridgeType by an unchecked
reinterpretation; a byte that is no listed discriminant is undefined
behaviour there, modelled here as none. -/
def CartridgeType.ofByte (b : Nat) : Option CartridgeType :=
  match b with
  | 0x00 => some .RomOnly
  | 0x01 => some .RomMbc1
  | 0x02 => some .RomMbc1Ram
  | 0x03 => some .RomMbc1RamBatt
  | 0x05 => some .RomMbc2
  | 0x06 => some .RomMbc2Batt
  | 0x08 => some .RomRam
  | 0x09 => some .RomRamBatt
  | 0x0B => some .RomMMMD1
  | 0x0C => some .RomMMMD1Sram
  | 0x0D => some .RomMMMD1SramBatt
  | 0x0F => some .RomMbc3TimerBatt
  | 0x10 => some .RomMbc3TimerRamBatt
  | 0x11 => some .RomMbc3
  | 0x12 => some .RomMbc3Ram
  | 0x13 => some .RomMbc3RamBatt
  | 0x19 => some .RomMbc5
  | 0x1A => some .RomMbc5Ram
  | 0x1B => some .RomMbc5RamBatt
  | 0x1C => some .RomMbc5Rumble
  | 0x1D => some .RomMbc5RumbleSram
  | 0x1E => some .RomMbc5RumbleSramBatt
  | 0x1F => some .PocketCamera
  | 0xFD => some .BandaiTAMA5
  | 0xFE => some .HudsonHuC3
  | 0xFF => some .HudsonHuC1
  | _ => none

/-- The GameROM structure of rom.rs. Bytes are Nat values below 256;
the name field keeps the raw header bytes of the name slice. -/
structure GameROM where
  backing_data : List Nat
  current_bank : Nat
  cart_ram : List Nat
  ram_size : Nat
  name : List Nat
  cart_type : CartridgeType
  deriving DecidableEq, Repr

/-- GameROM.read from rom.rs. A Rust index panic out of bounds and the
panic of the unimplemented-cartridge-type arm are modelled as none. -/
def GameROM.read (rom : GameROM) (ptr : Nat) : Option Nat :=
  match rom.cart_type with
  | .RomOnly => rom.backing_data[ptr]?
  | .RomMbc1 | .RomMbc1Ram | .RomMbc1RamBatt | .RomMbc3RamBatt =>
      if ptr < 0x4000 then
        rom.backing_data[ptr]?
      else
        let target := ptr + (rom.current_bank - 1) * 0x4000
        if target ≥ rom.backing_data.length then some 0xFF
        else rom.backing_data[target]?
  | _ => none

/-- GameROM.read_ram from rom.rs: RAM size zero yields the 0xFF
sentinel, otherwise the cartridge RAM is indexed (none on an
out-of-bounds index, which panics in Rust). -/
def GameROM.read_ram (rom : GameROM) (ptr : Nat) : Option Nat :=
  if rom.ram_size = 0 then some 0xFF
  else rom.cart_ram[ptr]?

/-- GameROM.write from rom.rs. Only the bank-select range of a banking
cartridge mutates state; the remaining arms only log. The
unimplemented-cartridge-type arm panics in Rust, modelled as none. -/
def GameROM.write (rom : GameROM) (ptr val : Nat) : Option GameROM :=
  match rom.cart_type with
  | .RomOnly => some rom
  | .RomMbc1 | .RomMbc1Ram | .RomMbc1RamBatt | .RomMbc3RamBatt =>
      if ptr ≤ 0x1FFF then some rom
      else if ptr ≤ 0x3FFF then
        let b := val &&& 0b11111
        some { rom with current_bank := if b < 1 then 1 else b }
      else if 0x6000 ≤ ptr ∧ ptr ≤ 0x7FFF then some rom
      else some rom
  | _ => none

/-- GameROM.write_ram from rom.rs: a no-op when the RAM size is zero,
otherwise an indexed store into the cartridge RAM (none models the
Rust index panic out of bounds). -/
def GameROM.write_ram (rom : GameROM) (ptr val : Nat) : Option GameROM :=
  if rom.ram_size = 0 then some rom
  else if ptr < rom.cart_ram.length then
    some { rom with cart_ram := rom.cart_ram.set ptr val }
  else none

/-- get_ram_size from rom.rs; the panic on an unknown id is none. -/
def get_ram_size (id : Nat) : Option Nat :=
  match id with
  | 0 => some 0
  | 1 => some (2 * 1024)
  | 2 => some (8 * 1024)
  | 3 => some (32 * 1024)
  | 4 => some (128 * 1024)
  | _ => none

/-- A continuation byte of a UTF-8 sequence. -/
def isUtf8Cont (b : Nat) : Bool :=
  0x80 ≤ b && b ≤ 0xBF

/-- Validity of a byte list as UTF-8, the check performed by the Rust
String construction that build applies to the name slice. -/
def utf8Valid : List Nat → Bool
  | [] => true
  | b :: rest =>
    if b ≤ 0x7F then utf8Valid rest
    else if 0xC2 ≤ b && b ≤ 0xDF then
      match rest with
      | c1 :: rest1 => isUtf8Cont c1 && utf8Valid rest1
      | [] => false
    else if b == 0xE0 then
      match rest with
      | c1 :: c2 :: rest2 =>
          (0xA0 ≤ c1 && c1 ≤ 0xBF) && (isUtf8Cont c2 && utf8Valid rest2)
      | _ => false
    else if (0xE1 ≤ b && b ≤ 0xEC) || (b == 0xEE || b == 0xEF) then
      match rest with
      | c1 :: c2 :: rest2 =>
          isUtf8Cont c1 && (isUtf8Cont c2 && utf8Valid rest2)
      | _ => false
    else if b == 0xED then
      match rest with
      | c1 :: c2 :: rest2 =>
          (0x80 ≤ c1 && c1 ≤ 0x9F) && (isUtf8Cont c2 && utf8Valid rest2)
      | _ => false
    else if b == 0xF0 then
      match rest with
      | c1 :: c2 :: c3 :: rest3 =>
          (0x90 ≤ c1 && c1 ≤ 0xBF) &&
            (isUtf8Cont c2 && (isUtf8Cont c3 && utf8Valid rest3))
      | _ => false
    else if 0xF1 ≤ b && b ≤ 0xF3 then
      match rest with
      | c1 :: c2 :: c3 :: rest3 =>
          isUtf8Cont c1 && (isUtf8Cont c2 && (isUtf8Cont c3 && utf8Valid rest3))
      | _ => false
    else if b == 0xF4 then
      match rest with
      | c1 :: c2 :: c3 :: rest3 =>
          (0x80 ≤ c1 && c1 ≤ 0x8F) &&
            (isUtf8Cont c2 && (isUtf8Cont c3 && utf8Valid rest3))
      | _ => false
    else false

/-- GameROM.build from rom.rs, applied to the byte list the file read
produces. Failure points of the source, in order: the name slice is
out of range, the name bytes are not UTF-8, the header indices are out
of range, the cartridge-type byte is no listed discriminant (undefined
behaviour in the source), the RAM-size code is unknown. -/
def GameROM.build (data : List Nat) : Option GameROM :=
  if data.length < 0x142 then none
  else if utf8Valid ((data.drop 0x134).take (0x142 - 0x134)) then
    data[0x147]?.bind fun tb =>
      (CartridgeType.ofByte tb).bind fun ct =>
        data[0x149]?.bind fun rc =>
          (get_ram_size rc).bind fun rs =>
            some { backing_data := data
                   current_bank := 1
                   cart_ram := List.replicate rs 0xFF
                   ram_size := rs
                   name := (data.drop 0x134).take (0x142 - 0x134)
                   cart_type := ct }
  else none

/-- Modelled from the spec: the Register File of sections 3 and 4.1 of
the design (its source module is not part of the excerpt): eight 8-bit
general registers, an 8-bit flag register, a 16-bit program counter and
stack pointer. Each 8-bit field holds a value below 256 in well-formed
states. -/
structure Registers where
  a : Nat
  b : Nat
  c : Nat
  d : Nat
  e : Nat
  f : Nat
  h : Nat
  l : Nat
  pc : Nat
  sp : Nat
  deriving DecidableEq, Repr

/-- Setting or clearing one flag bit of a flag byte by bitmask: the
or-mask sets the bit, the and-mask keeps every other bit. -/
def flagSet (f hi lo : Nat) (v : Bool) : Nat :=
  if v then f ||| hi else f &&& lo

/-- Modelled from the spec: flag accessors are bitmask operations on
the flag register, with the standard hardware layout of the four used
bits: zero at bit 7, subtract at bit 6, half-carry at bit 5, carry at
bit 4. -/
def Registers.set_flag_z (r : Registers) (v : Bool) : Registers :=
  { r with f := flagSet r.f 0x80 0x7F v }

/-- Modelled from the spec: subtract-flag mutator, bit 6. -/
def Registers.set_flag_n (r : Registers) (v : Bool) : Registers :=
  { r with f := flagSet r.f 0x40 0xBF v }

/-- Modelled from the spec: half-carry-flag mutator, bit 5. -/
def Registers.set_flag_h (r : Registers) (v : Bool) : Registers :=
  { r with f := flagSet r.f 0x20 0xDF v }

/-- Modelled from the spec: carry-flag mutator, bit 4. -/
def Registers.set_flag_c (r : Registers) (v : Bool) : Registers :=
  { r with f := flagSet r.f 0x10 0xEF v }

/-- Modelled from the spec: zero-flag accessor, bit 7. -/
def Registers.get_flag_z (r : Registers) : Bool :=
  r.f &&& 0x80 != 0

/-- Modelled from the spec: subtract-flag accessor, bit 6. -/
def Registers.get_flag_n (r : Registers) : Bool :=
  r.f &&& 0x40 != 0

/-- Modelled from the spec: half-carry-flag accessor, bit 5. -/
def Registers.get_flag_h (r : Registers) : Bool :=
  r.f &&& 0x20 != 0

/-- Modelled from the spec: carry-flag accessor, bit 4. -/
def Registers.get_flag_c (r : Registers) : Bool :=
  r.f &&& 0x10 != 0

/-- Modelled from the spec: the 16-bit HL pair accessor composes the
two 8-bit registers, high byte first. -/
def Registers.get_hl (r : Registers) : Nat :=
  r.h * 0x100 + r.l

/-- Modelled from the spec: the 16-bit HL pair mutator splits a 16-bit
value into high and low byte. -/
def Registers.set_hl (r : Registers) (v : Nat) : Registers :=
  { r with h := v / 0x100 % 0x100, l := v % 0x100 }

/-- Modelled from the spec: the CPU state the handlers mutate, a
Register File together with the Address Space byte fetch the operand
reads go through. -/
structure CPU where
  regs : Registers
  mem : Nat → Nat

/-- Modelled from the spec: get_n of the instruction utilities reads
the immediate operand byte at the program counter and advances the
program counter, wrapping at 16 bits. -/
def get_n (cpu : CPU) : Nat × CPU :=
  (cpu.mem cpu.regs.pc,
   { cpu with regs := { cpu.regs with pc := (cpu.regs.pc + 1) % 0x10000 } })

/-- Opcode 0xC6, ADD a n, translated from add_a_n in general.rs. -/
def add_a_n (cpu : CPU) : CPU × Nat :=
  let prev_value := cpu.regs.a
  let gn := get_n cpu
  let value := gn.1
  let cpu1 := gn.2
  let new_value := (prev_value + value) % 0x100
  let regs1 := { cpu1.regs with a := new_value }
  let regs2 := regs1.set_flag_z (new_value == 0)
  let regs3 := regs2.set_flag_n false
  let regs4 := regs3.set_flag_h (decide (((value &&& 0x0F) + (prev_value &&& 0x0F)) > 0xF))
  let regs5 := regs4.set_flag_c (decide ((prev_value + value) > 0xFF))
  ({ cpu1 with regs := regs5 }, 8)

/-- Opcode 0xD6, SUB a n, translated from sub_a_n in general.rs. The
two signed comparisons keep the i16 arithmetic of the source. -/
def sub_a_n (cpu : CPU) : CPU × Nat :=
  let prev_value := cpu.regs.a
  let gn := get_n cpu
  let value := gn.1
  let cpu1 := gn.2
  let new_value := (prev_value + 0x100 - value) % 0x100
  let regs1 := { cpu1.regs with a := new_value }
  let regs2 := regs1.set_flag_z (new_value == 0)
  let regs3 := regs2.set_flag_n true
  let regs4 := regs3.set_flag_h
    (decide ((((value &&& 0x0F : Nat) : Int) - ((prev_value &&& 0x0F : Nat) : Int)) < 0))
  let regs5 := regs4.set_flag_c
    (decide (((prev_value : Int) - (value : Int)) < 0))
  ({ cpu1 with regs := regs5 }, 8)

/-- Opcodes 0x19 to 0x39, ADD HL X, translated from add_hl_x in
general.rs. -/
def add_hl_x (val : Nat) (cpu : CPU) : CPU × Nat :=
  let prev_value := cpu.regs.get_hl
  let regs1 := cpu.regs.set_hl ((prev_value + val) % 0x10000)
  let regs2 := regs1.set_flag_n false
  let regs3 := regs2.set_flag_h (decide (((val &&& 0x0FFF) + (prev_value &&& 0x0FFF)) > 0xFFF))
  let regs4 := regs3.set_flag_c (decide ((prev_value + val) > 0xFFFF))
  ({ cpu with regs := regs4 }, 8)

/-- Opcode 0xCE, ADC a n, translated from adc_a_n in general.rs. The
mask placement in the two xor expressions keeps the Rust operator
precedence of the source, where the bitwise and binds tighter than
xor, so the mask applies to the operand term alone. -/
def adc_a_n (cpu : CPU) : CPU × Nat :=
  let gn := get_n cpu
  let value := gn.1
  let cpu1 := gn.2
  let old_value := cpu1.regs.a
  let carry : Nat := if cpu1.regs.get_flag_c then 1 else 0
  let new_value := (old_value + value + carry) % 0x100
  let unwrapped_value := old_value + value + carry
  let regs1 := { cpu1.regs with a := new_value, f := 0 }
  let regs2 := regs1.set_flag_z (new_value == 0)
  let regs3 := regs2.set_flag_h ((old_value ^^^ new_value ^^^ (value &&& 0x10)) == 0x10)
  let regs4 := regs3.set_flag_c ((old_value ^^^ unwrapped_value ^^^ (value &&& 0x100)) == 0x100)
  ({ cpu1 with regs := regs4 }, 8)

/-- Concrete CPU state for the opcode 0xC6 end-to-end check: register
a holds 0x0F, all flags set beforehand, and the operand byte is 0x01. -/
def cpuAdd : CPU :=
  { regs := { a := 0x0F, b := 0, c := 0, d := 0, e := 0, f := 0xF0,
              h := 0, l := 0, pc := 0, sp := 0 },
    mem := fun _ => 0x01 }

/-- Concrete CPU state for the opcode 0xD6 check: register a holds
0x01 and the operand byte is 0x02. -/
def cpuSub : CPU :=
  { regs := { a := 0x01, b := 0, c := 0, d := 0, e := 0, f := 0,
              h := 0, l := 0, pc := 0, sp := 0 },
    mem := fun _ => 0x02 }

/-- Concrete CPU state for the opcode 0xCE end-to-end check: register
a holds 0xFF, the carry flag is set, and the operand byte is 0x01. -/
def cpuAdc : CPU :=
  { regs := { a := 0xFF, b := 0, c := 0, d := 0, e := 0, f := 0x10,
              h := 0, l := 0, pc := 0, sp := 0 },
    mem := fun _ => 0x01 }

/-- Concrete CPU state for the 16-bit addition check: HL holds 0x0FFF
and the zero flag is set beforehand. -/
def cpuHl : CPU :=
  { regs := { a := 0, b := 0, c := 0, d := 0, e := 0, f := 0x80,
              h := 0x0F, l := 0xFF, pc := 0, sp := 0 },
    mem := fun _ => 0 }

set_option maxHeartbeats 1000000 in
set_option maxRecDepth 4096 in
/-- Reading the four flag bits back out of the z, n, h, c mask chain
yields exactly the four booleans that were written, for any flag byte
below 256. -/
lemma flag_chain_bits : ∀ f < 0x100, ∀ z n h c : Bool,
    (flagSet (flagSet (flagSet (flagSet f 0x80 0x7F z) 0x40 0xBF n) 0x20 0xDF h) 0x10 0xEF c
        &&& 0x80 != 0) = z ∧
    (flagSet (flagSet (flagSet (flagSet f 0x80 0x7F z) 0x40 0xBF n) 0x20 0xDF h) 0x10 0xEF c
        &&& 0x40 != 0) = n ∧
    (flagSet (flagSet (flagSet (flagSet f 0x80 0x7F z) 0x40 0xBF n) 0x20 0xDF h) 0x10 0xEF c
        &&& 0x20 != 0) = h ∧
    (flagSet (flagSet (flagSet (flagSet f 0x80 0x7F z) 0x40 0xBF n) 0x20 0xDF h) 0x10 0xEF c
        &&& 0x10 != 0) = c := by decide

set_option maxHeartbeats 1000000 in
set_option maxRecDepth 4096 in
/-- Reading the flag bits back out of the n, h, c mask chain: the
three written booleans come back and bit 7 is untouched, for any flag
byte below 256. -/
lemma flag_chain3_bits : ∀ f < 0x100, ∀ n h c : Bool,
    (flagSet (flagSet (flagSet f 0x40 0xBF n) 0x20 0xDF h) 0x10 0xEF c
        &&& 0x80 != 0) = (f &&& 0x80 != 0) ∧
    (flagSet (flagSet (flagSet f 0x40 0xBF n) 0x20 0xDF h) 0x10 0xEF c
        &&& 0x40 != 0) = n ∧
    (flagSet (flagSet (flagSet f 0x40 0xBF n) 0x20 0xDF h) 0x10 0xEF c
        &&& 0x20 != 0) = h ∧
    (flagSet (flagSet (flagSet f 0x40 0xBF n) 0x20 0xDF h) 0x10 0xEF c
        &&& 0x10 != 0) = c := by decide

/-- C4: for all 8-bit values a (accumulator) and b (immediate
operand), add_a_n stores (a+b) mod 256 in the accumulator, sets the
zero flag iff that wrapped result is 0, clears the subtract flag, sets
half-carry iff (a andmask 0xF) + (b andmask 0xF) exceeds 0xF, sets
carry iff a + b exceeds 0xFF, and returns 8 cycles. -/
theorem add_a_n_spec (cpu : CPU) (hf : cpu.regs.f < 0x100) :
    (add_a_n cpu).1.regs.a = (cpu.regs.a + cpu.mem cpu.regs.pc) % 0x100 ∧
    ((add_a_n cpu).1.regs.get_flag_z = true ↔
        (cpu.regs.a + cpu.mem cpu.regs.pc) % 0x100 = 0) ∧
    (add_a_n cpu).1.regs.get_flag_n = false ∧
    ((add_a_n cpu).1.regs.get_flag_h = true ↔
        (cpu.regs.a &&& 0xF) + (cpu.mem cpu.regs.pc &&& 0xF) > 0xF) ∧
    ((add_a_n cpu).1.regs.get_flag_c = true ↔
        cpu.regs.a + cpu.mem cpu.regs.pc > 0xFF) ∧
    (add_a_n cpu).2 = 8 := by
  have key := flag_chain_bits cpu.regs.f hf
      (((cpu.regs.a + cpu.mem cpu.regs.pc) % 0x100) == 0) false
      (decide (((cpu.mem cpu.regs.pc &&& 0x0F) + (cpu.regs.a &&& 0x0F)) > 0xF))
      (decide ((cpu.regs.a + cpu.mem cpu.regs.pc) > 0xFF))
  obtain ⟨kz, kn, kh, kc⟩ := key
  refine ⟨rfl, ?_, ?_, ?_, ?_, rfl⟩
  · show (flagSet (flagSet (flagSet (flagSet cpu.regs.f 0x80 0x7F
        (((cpu.regs.a + cpu.mem cpu.regs.pc) % 0x100) == 0)) 0x40 0xBF false) 0x20 0xDF
        (decide (((cpu.mem cpu.regs.pc &&& 0x0F) + (cpu.regs.a &&& 0x0F)) > 0xF))) 0x10 0xEF
        (decide ((cpu.regs.a + cpu.mem cpu.regs.pc) > 0xFF)) &&& 0x80 != 0) = true ↔ _
    rw [kz]
    simp
  · show (flagSet (flagSet (flagSet (flagSet cpu.regs.f 0x80 0x7F
        (((cpu.regs.a + cpu.mem cpu.regs.pc) % 0x100) == 0)) 0x40 0xBF false) 0x20 0xDF
        (decide (((cpu.mem cpu.regs.pc &&& 0x0F) + (cpu.regs.a &&& 0x0F)) > 0xF))) 0x10 0xEF
        (decide ((cpu.regs.a + cpu.mem cpu.regs.pc) > 0xFF)) &&& 0x40 != 0) = false
    rw [kn]
  · show (flagSet (flagSet (flagSet (flagSet cpu.regs.f 0x80 0x7F
        (((cpu.regs.a + cpu.mem cpu.regs.pc) % 0x100) == 0)) 0x40 0xBF false) 0x20 0xDF
        (decide (((cpu.mem cpu.regs.pc &&& 0x0F) + (cpu.regs.a &&& 0x0F)) > 0xF))) 0x10 0xEF
        (decide ((cpu.regs.a + cpu.mem cpu.regs.pc) > 0xFF)) &&& 0x20 != 0) = true ↔ _
    rw [kh]
    simp only [decide_eq_true_eq]
    omega
  · show (flagSet (flagSet (flagSet (flagSet cpu.regs.f 0x80 0x7F
        (((cpu.regs.a + cpu.mem cpu.regs.pc) % 0x100) == 0)) 0x40 0xBF false) 0x20 0xDF
        (decide (((cpu.mem cpu.regs.pc &&& 0x0F) + (cpu.regs.a &&& 0x0F)) > 0xF))) 0x10 0xEF
        (decide ((cpu.regs.a + cpu.mem cpu.regs.pc) > 0xFF)) &&& 0x10 != 0) = true ↔ _
    rw [kc]
    simp only [decide_eq_true_eq]

/-- Witness for C4: the end-to-end opcode 0xC6 case of the claim,
register a 0x0F plus immediate operand 0x01 gives a 0x10 and flags
z 0, n 0, h 1, c 0 with 8 cycles, via add_a_n_spec at cpuAdd. -/
theorem add_a_n_spec_witness :
    cpuAdd.regs.f < 0x100 ∧
    (add_a_n cpuAdd).1.regs.a = 0x10 ∧
    (add_a_n cpuAdd).1.regs.get_flag_z = false ∧
    (add_a_n cpuAdd).1.regs.get_flag_n = false ∧
    (add_a_n cpuAdd).1.regs.get_flag_h = true ∧
    (add_a_n cpuAdd).1.regs.get_flag_c = false ∧
    (add_a_n cpuAdd).2 = 8 := by
  have hs := add_a_n_spec cpuAdd (by decide)
  exact ⟨by decide, hs.1, by decide, hs.2.2.1,
    hs.2.2.2.1.mpr (by decide), by decide, hs.2.2.2.2.2⟩

/-- C6: for all values hl (the HL pair) and x (the operand), add_hl_x
stores (hl+x) mod 65536 in HL, clears the subtract flag, sets
half-carry iff a carry out of bit 11 occurs, sets carry iff hl + x
exceeds 0xFFFF, and leaves the zero flag with the exact value it had
before the call. -/
theorem add_hl_x_spec (val : Nat) (cpu : CPU) (hf : cpu.regs.f < 0x100) :
    (add_hl_x val cpu).1.regs.get_hl = (cpu.regs.get_hl + val) % 0x10000 ∧
    (add_hl_x val cpu).1.regs.get_flag_n = false ∧
    ((add_hl_x val cpu).1.regs.get_flag_h = true ↔
        (cpu.regs.get_hl &&& 0xFFF) + (val &&& 0xFFF) > 0xFFF) ∧
    ((add_hl_x val cpu).1.regs.get_flag_c = true ↔
        cpu.regs.get_hl + val > 0xFFFF) ∧
    (add_hl_x val cpu).1.regs.get_flag_z = cpu.regs.get_flag_z := by
  have key := flag_chain3_bits cpu.regs.f hf false
      (decide (((val &&& 0x0FFF) + (cpu.regs.get_hl &&& 0x0FFF)) > 0xFFF))
      (decide ((cpu.regs.get_hl + val) > 0xFFFF))
  obtain ⟨kz, kn, kh, kc⟩ := key
  refine ⟨?_, ?_, ?_, ?_, ?_⟩
  · show ((cpu.regs.get_hl + val) % 0x10000) / 0x100 % 0x100 * 0x100 +
        ((cpu.regs.get_hl + val) % 0x10000) % 0x100 = (cpu.regs.get_hl + val) % 0x10000
    omega
  · show (flagSet (flagSet (flagSet cpu.regs.f 0x40 0xBF false) 0x20 0xDF
        (decide (((val &&& 0x0FFF) + (cpu.regs.get_hl &&& 0x0FFF)) > 0xFFF))) 0x10 0xEF
        (decide ((cpu.regs.get_hl + val) > 0xFFFF)) &&& 0x40 != 0) = false
    rw [kn]
  · show (flagSet (flagSet (flagSet cpu.regs.f 0x40 0xBF false) 0x20 0xDF
        (decide (((val &&& 0x0FFF) + (cpu.regs.get_hl &&& 0x0FFF)) > 0xFFF))) 0x10 0xEF
        (decide ((cpu.regs.get_hl + val) > 0xFFFF)) &&& 0x20 != 0) = true ↔ _
    rw [kh]
    simp only [decide_eq_true_eq]
    omega
  · show (flagSet (flagSet (flagSet cpu.regs.f 0x40 0xBF false) 0x20 0xDF
        (decide (((val &&& 0x0FFF) + (cpu.regs.get_hl &&& 0x0FFF)) > 0xFFF))) 0x10 0xEF
        (decide ((cpu.regs.get_hl + val) > 0xFFFF)) &&& 0x10 != 0) = true ↔ _
    rw [kc]
    simp only [decide_eq_true_eq]
  · show (flagSet (flagSet (flagSet cpu.regs.f 0x40 0xBF false) 0x20 0xDF
        (decide (((val &&& 0x0FFF) + (cpu.regs.get_hl &&& 0x0FFF)) > 0xFFF))) 0x10 0xEF
        (decide ((cpu.regs.get_hl + val) > 0xFFFF)) &&& 0x80 != 0) = cpu.regs.get_flag_z
    rw [kz]
    rfl

/-- Witness for C6: add_hl_x at HL 0x0FFF, operand 1, zero flag set
beforehand: HL becomes 0x1000, n cleared, h set by the bit-11 carry,
c clear, z still set, via add_hl_x_spec at cpuHl. -/
theorem add_hl_x_spec_witness :
    cpuHl.regs.f < 0x100 ∧
    (add_hl_x 1 cpuHl).1.regs.get_hl = 0x1000 ∧
    (add_hl_x 1 cpuHl).1.regs.get_flag_n = false ∧
    (add_hl_x 1 cpuHl).1.regs.get_flag_h = true ∧
    (add_hl_x 1 cpuHl).1.regs.get_flag_c = false ∧
    (add_hl_x 1 cpuHl).1.regs.get_flag_z = cpuHl.regs.get_flag_z := by
  have hs := add_hl_x_spec 1 cpuHl (by decide)
  exact ⟨by decide, by decide, hs.2.1, hs.2.2.1.mpr (by decide),
    by decide, hs.2.2.2.2⟩

/-- C1: evaluation of adc_a_n at the claimed end-to-end input,
register a 0xFF, operand 0x01, carry-in 1. The accumulator and the
zero flag come out as the claim states, but the carry flag comes out
clear, against the claim, because the mask in the carry-out xor
expression binds to the operand term alone under Rust operator
precedence. -/
theorem adc_a_n_carry_bug :
    (adc_a_n cpuAdc).1.regs.a = 0x01 ∧
    (adc_a_n cpuAdc).1.regs.get_flag_z = false ∧
    (adc_a_n cpuAdc).1.regs.get_flag_c = false := by decide

/-- C5: evaluation of sub_a_n at register a 0x01, operand 0x02. The
wrapped result, the subtract flag and the carry flag follow the
claim, but the half-carry flag comes out clear although the low
nibble of the operand exceeds the low nibble of the accumulator,
because the source compares the nibbles in the reversed order. -/
theorem sub_a_n_half_carry_bug :
    (sub_a_n cpuSub).1.regs.a = 0xFF ∧
    (sub_a_n cpuSub).1.regs.get_flag_n = true ∧
    (sub_a_n cpuSub).1.regs.get_flag_c = true ∧
    (0x02 &&& 0xF) > (0x01 &&& 0xF) ∧
    (sub_a_n cpuSub).1.regs.get_flag_h = false := by decide

/-- Header-sized image of 0x14A zero bytes: cartridge-type code 0x00
(RomOnly) and RAM-size code 0. -/
def cexData : List Nat := List.replicate 0x14A 0

/-- The GameROM that build produces from cexData. -/
def cexRom : GameROM :=
  { backing_data := cexData
    current_bank := 1
    cart_ram := []
    ram_size := 0
    name := List.replicate 14 0
    cart_type := .RomOnly }

/-- Image whose cartridge-type byte is 0x01 (RomMbc1). -/
def mbc1Data : List Nat := (List.replicate 0x14A 0).set 0x147 0x01

/-- The GameROM that build produces from mbc1Data. -/
def mbc1Rom : GameROM :=
  { backing_data := mbc1Data
    current_bank := 1
    cart_ram := []
    ram_size := 0
    name := List.replicate 14 0
    cart_type := .RomMbc1 }

/-- Image whose cartridge-type byte is 0x19 (RomMbc5), a listed code
with no read or write routing implemented. -/
def mbc5Data : List Nat := (List.replicate 0x14A 0).set 0x147 0x19

/-- The GameROM that build produces from mbc5Data. -/
def mbc5Rom : GameROM :=
  { backing_data := mbc5Data
    current_bank := 1
    cart_ram := []
    ram_size := 0
    name := List.replicate 14 0
    cart_type := .RomMbc5 }

/-- Image whose RAM-size code byte is 3 (32 KiB of cartridge RAM). -/
def ramData : List Nat := (List.replicate 0x14A 0).set 0x149 3

/-- The GameROM that build produces from ramData. -/
def ramRom : GameROM :=
  { backing_data := ramData
    current_bank := 1
    cart_ram := List.replicate (32 * 1024) 0xFF
    ram_size := 32 * 1024
    name := List.replicate 14 0
    cart_type := .RomOnly }

/-- A small cartridge state with three bytes of RAM, used to witness
the RAM round-trip claim. -/
def tinyRamRom : GameROM :=
  { backing_data := []
    current_bank := 1
    cart_ram := [0, 0, 0]
    ram_size := 3
    name := []
    cart_type := .RomOnly }

/-- The cartridge types for which read and write routing is
implemented in rom.rs. -/
def routedCartType (ct : CartridgeType) : Bool :=
  match ct with
  | .RomOnly | .RomMbc1 | .RomMbc1Ram | .RomMbc1RamBatt | .RomMbc3RamBatt => true
  | _ => false

/-- The banking cartridge types, the MBC1-family arm of the read and
write routing in rom.rs. -/
def bankedCartType (ct : CartridgeType) : Bool :=
  match ct with
  | .RomMbc1 | .RomMbc1Ram | .RomMbc1RamBatt | .RomMbc3RamBatt => true
  | _ => false

/-- Every GameROM that build returns has bank selector 1, keeps the
input bytes as its image, and carries a RAM buffer of exactly
ram_size bytes, each 0xFF. -/
lemma build_fields {data : List Nat} {rom : GameROM}
    (h : GameROM.build data = some rom) :
    rom.current_bank = 1 ∧ rom.backing_data = data ∧
    rom.cart_ram = List.replicate rom.ram_size 0xFF := by
  unfold GameROM.build at h
  split at h
  · cases h
  · split at h
    · simp only [Option.bind_eq_some, Option.some.injEq] at h
      obtain ⟨tb, h7, ct, hct, rc, h9, rs, hrs, heq⟩ := h
      subst heq
      exact ⟨rfl, rfl, rfl⟩
    · cases h

set_option maxRecDepth 10000 in
/-- C2 counterexample: a no-banking (RomOnly) cartridge built from a
330-byte image, read at address 0x2000. The resolved offset 0x2000 is
at or beyond the image length, yet read does not return 0xFF: it
indexes the image directly and panics (none), refuting the claim for
the no-banking path. -/
theorem read_oob_romonly_cex :
    GameROM.build cexData = some cexRom ∧
    cexRom.backing_data.length ≤ 0x2000 ∧
    GameROM.read cexRom 0x2000 = none := by
  refine ⟨by decide, by decide, by decide⟩

/-- C2 amended: only the banked path guards the image length. For a
banking (MBC1-family) cartridge and any address at or above 0x4000
whose resolved offset is at or beyond the image length, read returns
exactly 0xFF and does not panic; the below-0x4000 direct path of a
banking cartridge and the no-banking path index the image directly
and panic when the offset is at or beyond the image length. -/
theorem read_oob_spec (rom : GameROM) (ptr : Nat)
    (hct : bankedCartType rom.cart_type = true)
    (hptr : 0x4000 ≤ ptr)
    (hoob : rom.backing_data.length ≤ ptr + (rom.current_bank - 1) * 0x4000) :
    GameROM.read rom ptr = some 0xFF ∧
    (∀ q, q < 0x4000 → rom.backing_data.length ≤ q → GameROM.read rom q = none) ∧
    (∀ r2 : GameROM, r2.cart_type = .RomOnly → ∀ q, r2.backing_data.length ≤ q →
        GameROM.read r2 q = none) := by
  refine ⟨?_, ?_, ?_⟩
  · unfold GameROM.read
    split
    · rename_i heq
      rw [heq] at hct
      exact absurd hct (by decide)
    all_goals try
      (rw [if_neg (show ¬ ptr < 0x4000 by omega)]
       exact if_pos hoob)
    cases hk : rom.cart_type <;> rw [hk] at hct <;>
      first
      | exact absurd hct (by decide)
      | exact absurd hk (by assumption)
  · intro q hq hlen
    unfold GameROM.read
    split
    · rename_i heq
      rw [heq] at hct
      exact absurd hct (by decide)
    all_goals try
      (rw [if_pos hq]
       exact List.getElem?_eq_none hlen)
    cases hk : rom.cart_type <;> rw [hk] at hct <;>
      first
      | exact absurd hct (by decide)
      | exact absurd hk (by assumption)
  · intro r2 hr2 q hlen
    unfold GameROM.read
    split
    · exact List.getElem?_eq_none hlen
    all_goals try
      (rename_i heq
       rw [hr2] at heq
       cases heq)
    exact absurd hr2 (by assumption)

set_option maxRecDepth 10000 in
/-- Witness for read_oob_spec: the MBC1 cartridge built from the
330-byte image mbc1Data, read at 0x4000 with bank 1: the resolved
offset 0x4000 is beyond the image, and read yields the 0xFF
sentinel. -/
theorem read_oob_spec_witness :
    bankedCartType mbc1Rom.cart_type = true ∧
    0x4000 ≤ 0x4000 ∧
    mbc1Rom.backing_data.length ≤ 0x4000 + (mbc1Rom.current_bank - 1) * 0x4000 ∧
    GameROM.read mbc1Rom 0x4000 = some 0xFF := by
  have hs := read_oob_spec mbc1Rom 0x4000 (by decide) (by decide) (by decide)
  exact ⟨by decide, by decide, by decide, hs.1⟩

set_option maxRecDepth 10000 in
/-- C3 counterexample: the cartridge-type byte 0x19 (RomMbc5) is a
listed code with no implemented read or write routing, yet build
accepts it without any error; the fatal error surfaces only later, at
the first read or write, refuting construction-time validation. -/
theorem build_no_type_validation_cex :
    GameROM.build mbc5Data = some mbc5Rom ∧
    GameROM.read mbc5Rom 0 = none ∧
    GameROM.write mbc5Rom 0 0 = none := by
  refine ⟨by decide, by decide, by decide⟩

/-- C3 amended: construction does not validate the cartridge-type
byte against the supported set: it reinterprets the byte directly as
the type tag (undefined behaviour on an unlisted byte, modelled as
failure), accepting every listed discriminant whether or not routing
implements it; a cartridge type without routing support is a fatal
error raised later, at the first read or write, not at construction
time. -/
theorem build_defers_type_errors (data : List Nat) (tb rc rs : Nat)
    (ct : CartridgeType)
    (hlen : ¬ data.length < 0x142)
    (hname : utf8Valid ((data.drop 0x134).take (0x142 - 0x134)) = true)
    (h7 : data[0x147]? = some tb)
    (hct : CartridgeType.ofByte tb = some ct)
    (h9 : data[0x149]? = some rc)
    (hrs : get_ram_size rc = some rs) :
    (GameROM.build data).isSome = true ∧
    (∀ rom2 : GameROM, GameROM.build data = some rom2 → rom2.cart_type = ct) ∧
    (∀ rom2 : GameROM, routedCartType rom2.cart_type = false →
        ∀ p v, GameROM.read rom2 p = none ∧ GameROM.write rom2 p v = none) := by
  refine ⟨?_, ?_, ?_⟩
  · unfold GameROM.build
    simp only [if_neg hlen, if_pos hname, h7, hct, h9, hrs, Option.some_bind]
    rfl
  · intro rom2 hb
    unfold GameROM.build at hb
    simp only [if_neg hlen, if_pos hname, h7, hct, h9, hrs, Option.some_bind,
      Option.some.injEq] at hb
    rw [← hb]
  · intro rom2 hroute p v
    constructor
    · unfold GameROM.read
      split
      · rename_i heq
        rw [heq] at hroute
        cases hroute
      all_goals try
        (rename_i heq
         rw [heq] at hroute
         cases hroute)
      rfl
    · unfold GameROM.write
      split
      · rename_i heq
        rw [heq] at hroute
        cases hroute
      all_goals try
        (rename_i heq
         rw [heq] at hroute
         cases hroute)
      rfl

set_option maxRecDepth 10000 in
/-- Witness for build_defers_type_errors: the concrete 330-byte image
with type byte 0x19 satisfies every hypothesis, build accepts it, and
the resulting RomMbc5 cartridge fails at its first read. -/
theorem build_defers_type_errors_witness :
    (GameROM.build mbc5Data).isSome = true ∧
    GameROM.read mbc5Rom 1 = none ∧
    GameROM.write mbc5Rom 1 1 = none := by
  have hs := build_defers_type_errors mbc5Data 0x19 0 0 .RomMbc5
      (by decide) (by decide) (by decide) (by decide) (by decide) (by decide)
  exact ⟨hs.1, (hs.2.2 mbc5Rom (by decide) 1 1).1, (hs.2.2 mbc5Rom (by decide) 1 1).2⟩

/-- The Mapper states reachable through the public operations:
construction by build, then any sequence of successful write and
write_ram calls (read and read_ram take no mutable state). -/
inductive Reachable : GameROM → Prop where
  | built (data : List Nat) (rom : GameROM) :
      GameROM.build data = some rom → Reachable rom
  | write_step (rom rom2 : GameROM) (ptr v : Nat) :
      Reachable rom → GameROM.write rom ptr v = some rom2 → Reachable rom2
  | write_ram_step (rom rom2 : GameROM) (ptr v : Nat) :
      Reachable rom → GameROM.write_ram rom ptr v = some rom2 → Reachable rom2

/-- The one equation governing the bank selector across write: the
bank-select arm of a banking cartridge stores the clamped low five
bits, every other successful write leaves the selector alone. -/
lemma write_bank_eq {rom rom2 : GameROM} {ptr v : Nat}
    (h : GameROM.write rom ptr v = some rom2) :
    rom2.current_bank =
      if bankedCartType rom.cart_type = true ∧ 0x2000 ≤ ptr ∧ ptr ≤ 0x3FFF
      then max 1 (v &&& 0b11111) else rom.current_bank := by
  unfold GameROM.write at h
  split at h
  · rename_i heq
    rw [if_neg (fun hcon => by rw [heq] at hcon; exact absurd hcon.1 (by decide))]
    injection h with h2
    rw [← h2]
  all_goals try
    (rename_i heq
     split at h
     · rename_i hle
       rw [if_neg (fun hcon => by omega)]
       injection h with h2
       rw [← h2]
     · split at h
       · rename_i hle hle2
         rw [if_pos ⟨by rw [heq]; rfl, by omega, by omega⟩]
         injection h with h2
         rw [← h2]
         show (if (v &&& 0b11111) < 1 then 1 else (v &&& 0b11111)) =
           max 1 (v &&& 0b11111)
         split <;> omega
       · rename_i hle hle2
         split at h
         · rw [if_neg (fun hcon => by omega)]
           injection h with h2
           rw [← h2]
         · rw [if_neg (fun hcon => by omega)]
           injection h with h2
           rw [← h2])
  cases h

/-- A successful write_ram never touches the bank selector. -/
lemma write_ram_bank {rom rom2 : GameROM} {ptr v : Nat}
    (h : GameROM.write_ram rom ptr v = some rom2) :
    rom2.current_bank = rom.current_bank := by
  unfold GameROM.write_ram at h
  split at h
  · injection h with h2
    rw [← h2]
  · split at h
    · injection h with h2
      rw [← h2]
    · cases h

/-- C7 counterexample: on a no-banking (RomOnly) cartridge a write of
value 0x02 to the bank-select range 0x2000 to 0x3FFF leaves the
selector at 1, although the claim demands max(1, 0x02 andmask
0b11111) = 2: the bank-select interpretation exists only in the
banking-cartridge arm. -/
theorem bank_select_romonly_cex :
    GameROM.write cexRom 0x2000 0x02 = some cexRom ∧
    cexRom.current_bank = 1 ∧
    max 1 (0x02 &&& 0b11111) = 2 := by
  exact ⟨rfl, rfl, rfl⟩

/-- C7 amended: the bank selector is 1 immediately after
construction; writing v to the bank-select range of a banking
(MBC1-family) cartridge sets it to max(1, v andmask 0b11111);
every other successful write, all writes on a no-banking cartridge
included, and every write_ram leave it unchanged; hence every
reachable Mapper state has a bank selector of at least 1. -/
theorem bank_invariant :
    (∀ data rom, GameROM.build data = some rom → rom.current_bank = 1) ∧
    (∀ rom ptr v rom2, bankedCartType rom.cart_type = true →
        0x2000 ≤ ptr → ptr ≤ 0x3FFF → GameROM.write rom ptr v = some rom2 →
        rom2.current_bank = max 1 (v &&& 0b11111)) ∧
    (∀ rom ptr v rom2,
        ¬(bankedCartType rom.cart_type = true ∧ 0x2000 ≤ ptr ∧ ptr ≤ 0x3FFF) →
        GameROM.write rom ptr v = some rom2 →
        rom2.current_bank = rom.current_bank) ∧
    (∀ rom ptr v rom2, GameROM.write_ram rom ptr v = some rom2 →
        rom2.current_bank = rom.current_bank) ∧
    (∀ rom, Reachable rom → 1 ≤ rom.current_bank) := by
  refine ⟨?_, ?_, ?_, ?_, ?_⟩
  · intro data rom h
    exact (build_fields h).1
  · intro rom ptr v rom2 hb h1 h2 hw
    rw [write_bank_eq hw, if_pos ⟨hb, h1, h2⟩]
  · intro rom ptr v rom2 hcon hw
    rw [write_bank_eq hw, if_neg hcon]
  · intro rom ptr v rom2 hw
    exact write_ram_bank hw
  · intro rom hreach
    induction hreach with
    | built data rom h =>
        rw [(build_fields h).1]
    | write_step rom rom2 ptr v hr hw ih =>
        rw [write_bank_eq hw]
        split
        · omega
        · exact ih
    | write_ram_step rom rom2 ptr v hr hw ih =>
        rw [write_ram_bank hw]
        exact ih

set_option maxRecDepth 10000 in
/-- Witness for bank_invariant: on the built MBC1 cartridge a write
of 0x22 to 0x2000 yields bank 2, and the built RomOnly cartridge is
reachable with bank at least 1. -/
theorem bank_invariant_witness :
    ({ mbc1Rom with current_bank := 2 } : GameROM).current_bank =
      max 1 (0x22 &&& 0b11111) ∧
    Reachable cexRom ∧ 1 ≤ cexRom.current_bank := by
  refine ⟨?_, ?_, ?_⟩
  · exact bank_invariant.2.1 mbc1Rom 0x2000 0x22 _ (by decide) (by decide)
      (by decide) rfl
  · exact Reachable.built cexData cexRom (by decide)
  · exact bank_invariant.2.2.2.2 cexRom (Reachable.built cexData cexRom (by decide))

/-- C8: on a cartridge whose RAM size is 0, read_ram returns the 0xFF
sentinel at every address, write_ram returns the state unchanged at
every address and value, and neither operation fails. -/
theorem ram_zero_sentinel (rom : GameROM) (ptr v : Nat)
    (h : rom.ram_size = 0) :
    GameROM.read_ram rom ptr = some 0xFF ∧
    GameROM.write_ram rom ptr v = some rom := by
  unfold GameROM.read_ram GameROM.write_ram
  rw [if_pos h, if_pos h]
  exact ⟨rfl, rfl⟩

/-- Witness for ram_zero_sentinel: the built RomOnly cartridge has
RAM size 0; reading RAM at 0x1234 yields 0xFF and writing there is a
no-op. -/
theorem ram_zero_sentinel_witness :
    GameROM.read_ram cexRom 0x1234 = some 0xFF ∧
    GameROM.write_ram cexRom 0x1234 7 = some cexRom :=
  ram_zero_sentinel cexRom 0x1234 7 rfl

set_option maxRecDepth 10000 in
/-- C9: get_ram_size realizes exactly the table 0 to 0, 1 to 2 KiB,
2 to 8 KiB, 3 to 32 KiB, 4 to 128 KiB and fails on every other code;
build propagates that failure; every built cartridge carries a RAM
buffer of ram_size bytes all 0xFF; and the concrete image with
RAM-size code 3 builds into a buffer of exactly 32 times 1024 bytes,
each 0xFF. -/
theorem ram_size_spec :
    get_ram_size 0 = some 0 ∧
    get_ram_size 1 = some (2 * 1024) ∧
    get_ram_size 2 = some (8 * 1024) ∧
    get_ram_size 3 = some (32 * 1024) ∧
    get_ram_size 4 = some (128 * 1024) ∧
    (∀ id, 4 < id → get_ram_size id = none) ∧
    (∀ data rc, data[0x149]? = some rc → get_ram_size rc = none →
        GameROM.build data = none) ∧
    (∀ data rom, GameROM.build data = some rom →
        rom.cart_ram = List.replicate rom.ram_size 0xFF) ∧
    GameROM.build ramData = some ramRom ∧
    ramRom.cart_ram.length = 32 * 1024 ∧
    (∀ x ∈ ramRom.cart_ram, x = 0xFF) := by
  refine ⟨rfl, rfl, rfl, rfl, rfl, ?_, ?_, ?_, ?_, ?_, ?_⟩
  · intro id hid
    match id, hid with
    | (n + 5), _ => rfl
  · intro data rc h9 hrc
    unfold GameROM.build
    split
    · rfl
    · split
      · cases h7 : data[0x147]? with
        | none => rfl
        | some tb =>
          simp only [Option.some_bind]
          cases hct : CartridgeType.ofByte tb with
          | none => rfl
          | some ct =>
            simp only [Option.some_bind, h9, hrc, Option.none_bind]
      · rfl
  · intro data rom h
    exact (build_fields h).2.2
  · rfl
  · show (List.replicate (32 * 1024) (0xFF : Nat)).length = 32 * 1024
    rw [List.length_replicate]
  · intro x hx
    have hx2 : x ∈ List.replicate (32 * 1024) (0xFF : Nat) := hx
    exact List.eq_of_mem_replicate hx2

/-- Witness for ram_size_spec: the table applied at code 3 and the
failure at code 7, via ram_size_spec. -/
theorem ram_size_spec_witness :
    get_ram_size 3 = some (32 * 1024) ∧ get_ram_size 7 = none :=
  ⟨ram_size_spec.2.2.2.1, ram_size_spec.2.2.2.2.2.1 7 (by decide)⟩

/-- C10: on a cartridge with nonzero RAM size whose buffer length
matches ram_size (as build guarantees), for any address below the RAM
size, write_ram stores the byte, a read_ram at the same address then
returns it, every other RAM byte is unchanged, and all remaining
state, image, bank selector, name and cartridge type, is
untouched. -/
theorem write_ram_read_ram (rom : GameROM) (ptr v : Nat)
    (h0 : rom.ram_size ≠ 0) (hlen : rom.cart_ram.length = rom.ram_size)
    (hp : ptr < rom.ram_size) :
    GameROM.write_ram rom ptr v =
      some { rom with cart_ram := rom.cart_ram.set ptr v } ∧
    GameROM.read_ram { rom with cart_ram := rom.cart_ram.set ptr v } ptr =
      some v ∧
    (∀ q, q ≠ ptr → (rom.cart_ram.set ptr v)[q]? = rom.cart_ram[q]?) ∧
    (∀ rom2, GameROM.write_ram rom ptr v = some rom2 →
        rom2.backing_data = rom.backing_data ∧
        rom2.current_bank = rom.current_bank ∧
        rom2.name = rom.name ∧
        rom2.cart_type = rom.cart_type ∧
        rom2.ram_size = rom.ram_size) := by
  have hplen : ptr < rom.cart_ram.length := by omega
  have h1 : GameROM.write_ram rom ptr v =
      some { rom with cart_ram := rom.cart_ram.set ptr v } := by
    unfold GameROM.write_ram
    rw [if_neg h0, if_pos hplen]
  refine ⟨h1, ?_, ?_, ?_⟩
  · unfold GameROM.read_ram
    rw [if_neg h0]
    exact List.getElem?_set_self hplen
  · intro q hq
    exact List.getElem?_set_ne (Ne.symm hq)
  · intro rom2 h2
    rw [h1] at h2
    injection h2 with h3
    rw [← h3]
    exact ⟨rfl, rfl, rfl, rfl, rfl⟩

/-- Witness for write_ram_read_ram: the three-byte RAM cartridge,
writing 0xAB at address 1 and reading it back. -/
theorem write_ram_read_ram_witness :
    GameROM.write_ram tinyRamRom 1 0xAB =
      some { tinyRamRom with cart_ram := tinyRamRom.cart_ram.set 1 0xAB } ∧
    GameROM.read_ram
      { tinyRamRom with cart_ram := tinyRamRom.cart_ram.set 1 0xAB } 1 =
      some 0xAB := by
  have hs := write_ram_read_ram tinyRamRom 1 0xAB (by decide) (by decide) (by decide)
  exact ⟨hs.1, hs.2.1⟩

end Oxidgb
